import Mathlib

/-
  Verification of the inotify watcher core (Go repository `20yyq/inotify`).

  Shallow embedding: Go byte slices and strings become `List Nat` of bytes,
  the Go `map[uint32]*WatchSingle` becomes a function `Nat → Option WatchSingle`,
  the fixed 400-byte event array becomes a byte list of length `bufCap`, and
  unsigned 32-bit arithmetic is made explicit with `% U32`.  Kernel side
  effects (`syscall.Close`, `syscall.InotifyRmWatch`, `syscall.Read`) are
  recorded in explicit logs / passed as explicit inputs.  A Go run-time panic
  (nil-map dereference) is modelled by `Except.error`.
-/

namespace Inotify

/-- Bytes are modelled as natural numbers; Go byte slices and Go strings
    (which are raw byte strings) become lists of bytes. -/
abbrev Bytes := List Nat

/-- 2^32, the modulus of Go `uint32` arithmetic. -/
def U32 : Nat := 4294967296

/-- `syscall.SizeofInotifyEvent`: four 32-bit header fields. -/
def SizeofInotifyEvent : Nat := 16

/-- Capacity of `eventBuffer`: `[syscall.SizeofInotifyEvent*25]byte`. -/
def bufCap : Nat := SizeofInotifyEvent * 25

/-- High-water mark: `const MAX_ITEM = syscall.SizeofInotifyEvent*20`. -/
def MAX_ITEM : Nat := SizeofInotifyEvent * 20

/- The inotify mask constants, with their Linux numeric values
   (`syscall.IN_*`). -/

def IN_MODIFY : Nat := 2
def IN_ATTRIB : Nat := 4
def IN_CLOSE_WRITE : Nat := 8
def IN_CLOSE_NOWRITE : Nat := 16
def IN_CLOSE : Nat := 24
def IN_OPEN : Nat := 32
def IN_MOVED_FROM : Nat := 64
def IN_MOVED_TO : Nat := 128
def IN_MOVE : Nat := 192
def IN_CREATE : Nat := 256
def IN_DELETE : Nat := 512
def IN_DELETE_SELF : Nat := 1024
def IN_MOVE_SELF : Nat := 2048
def IN_IGNORED : Nat := 32768

/-- `type WatchSingle struct`.  The Go back-pointer `watch *Watcher` is split
    into the flag `hasWatch` (whether the pointer is non-nil); the pointed-to
    watcher state is passed explicitly to the operations that use it. -/
structure WatchSingle where
  path : Bytes
  isDir : Bool
  watchId : Nat
  flags : Nat
  hasWatch : Bool
  remove : Bool
  FileName : Bytes
  Mask : Nat
  deriving DecidableEq

/-- `type Watcher struct`.  `closedLog` records every `syscall.Close` the
    watcher has issued and `rmLog` every `syscall.InotifyRmWatch`, so that
    resource-release behaviour is observable in the model. -/
structure Watcher where
  inotifyFD : Int
  epollFD : Int
  watchMap : Nat → Option WatchSingle
  eventBuffer : Bytes
  bufferItem : Nat
  closes : Bool
  rmLog : List Nat
  closedLog : List Int

/-- Point update of the registry map (Go `w.watchMap[k] = v` / `delete`). -/
def setMap (m : Nat → Option WatchSingle) (k : Nat) (v : Option WatchSingle) :
    Nat → Option WatchSingle :=
  fun j => if j = k then v else m j

/-- Little-endian unsigned 32-bit read of the first four bytes, the meaning of
    the Go pointer cast `(*syscall.InotifyEvent)(unsafe.Pointer(&buf[0]))`
    on a little-endian machine. -/
def readU32 (l : Bytes) : Nat :=
  l.getD 0 0 + 256 * l.getD 1 0 + 65536 * l.getD 2 0 + 16777216 * l.getD 3 0

/-- `func (w *Watcher) forwardBuffer() *WatchSingle`.

    The header fields `Wd`, `Mask`, `Len` live at byte offsets 0, 4, 12.  On a
    resolved watch id the entry's `Mask` and `FileName` are updated in the
    registry and the consumed span (`SizeofInotifyEvent` plus the name length,
    in `uint32` arithmetic) is shifted out of the front of the buffer by
    `copy`; the `uint32` counter update `w.bufferItem -= offset` is the
    explicit wrap-around `(bufferItem + (U32 - offset)) % U32`.  On an
    unresolved id the whole buffer is discarded (`bufferItem = 0`) and `none`
    (Go `nil`) is returned. -/
def forwardBuffer (w : Watcher) : Option WatchSingle × Watcher :=
  let wd := readU32 w.eventBuffer
  let mask := readU32 (w.eventBuffer.drop 4)
  let len := readU32 (w.eventBuffer.drop 12)
  match w.watchMap wd with
  | some ws =>
    let name := (w.eventBuffer.drop 16).take len
    let ws1 : WatchSingle :=
      { ws with Mask := mask,
                FileName := if 0 < len then ws.path ++ name else ws.path }
    let offset := if 0 < len then (SizeofInotifyEvent + len) % U32 else SizeofInotifyEvent
    (some ws1,
      { w with watchMap := setMap w.watchMap wd (some ws1),
               eventBuffer :=
                 w.eventBuffer.drop offset ++ w.eventBuffer.drop (bufCap - offset),
               bufferItem := (w.bufferItem + (U32 - offset)) % U32 })
  | none =>
    (none,
      { w with eventBuffer :=
                 w.eventBuffer.drop w.bufferItem ++ w.eventBuffer.drop (bufCap - w.bufferItem),
               bufferItem := 0 })

/-- One kernel notification record as laid out on the wire: the four 32-bit
    header fields followed by `name` (the `len` field counts the name bytes,
    NUL padding included). -/
structure InotifyEventRec where
  wd : Nat
  mask : Nat
  cookie : Nat
  len : Nat
  name : Bytes
  deriving DecidableEq

/-- Little-endian serialization of an unsigned 32-bit field. -/
def u32le (x : Nat) : Bytes :=
  [x % 256, x / 256 % 256, x / 65536 % 256, x / 16777216 % 256]

/-- Wire layout of one record: `wd`, `mask`, `cookie`, `len`, then the name
    bytes. -/
def encode (r : InotifyEventRec) : Bytes :=
  u32le r.wd ++ u32le r.mask ++ u32le r.cookie ++ u32le r.len ++ r.name

/-- Front-to-back concatenation of several records. -/
def encodeList (rs : List InotifyEventRec) : Bytes :=
  rs.foldr (fun r acc => encode r ++ acc) []

/-- Well-formed record: the `len` header field counts exactly the name bytes
    and every field fits in 32 bits. -/
def wfRecord (r : InotifyEventRec) : Prop :=
  r.name.length = r.len ∧ r.wd < U32 ∧ r.mask < U32 ∧ r.cookie < U32 ∧ r.len < U32

instance (r : InotifyEventRec) : Decidable (wfRecord r) := by
  unfold wfRecord
  infer_instance

/-- `func (ws WatchSingle) GetEventName() string`.

    The priority chain of the Go `switch`.  The self-delete and self-move
    branches write `remove = true` through `ws.watch.watchMap[ws.watchId]`
    without checking that the key is present; in Go an absent key yields a nil
    pointer and the field write panics, modelled here as `Except.error ()`.
    The self-move branch additionally calls `syscall.InotifyRmWatch`
    (recorded in `rmLog`).  The terminal-ignored branch reads the same
    unchecked lookup, and deletes the entry only when `remove` was set. -/
def GetEventName (ws : WatchSingle) (w : Watcher) : Except Unit (String × Watcher) :=
  if ws.Mask &&& IN_DELETE_SELF = IN_DELETE_SELF then
    if ws.hasWatch then
      match w.watchMap ws.watchId with
      | some e =>
        .ok ("DELETE_SELF",
          { w with watchMap := setMap w.watchMap ws.watchId (some { e with remove := true }) })
      | none => .error ()
    else .ok ("DELETE_SELF", w)
  else if ws.Mask &&& IN_MOVE_SELF = IN_MOVE_SELF then
    if ws.hasWatch then
      match w.watchMap ws.watchId with
      | some e =>
        .ok ("MOVE_SELF",
          { w with watchMap := setMap w.watchMap ws.watchId (some { e with remove := true }),
                   rmLog := w.rmLog ++ [ws.watchId] })
      | none => .error ()
    else .ok ("MOVE_SELF", w)
  else if ws.Mask &&& IN_CREATE = IN_CREATE then .ok ("CREATE", w)
  else if ws.Mask &&& IN_DELETE = IN_DELETE then .ok ("DELETE", w)
  else if ws.Mask &&& IN_OPEN = IN_OPEN then .ok ("OPEN", w)
  else if ws.Mask &&& IN_CLOSE = IN_CLOSE then .ok ("CLOSE", w)
  else if ws.Mask &&& IN_CLOSE_WRITE = IN_CLOSE_WRITE then .ok ("CLOSE_WRITE", w)
  else if ws.Mask &&& IN_CLOSE_NOWRITE = IN_CLOSE_NOWRITE then .ok ("CLOSE_NOWRITE", w)
  else if ws.Mask &&& IN_MOVE = IN_MOVE then .ok ("MOVE", w)
  else if ws.Mask &&& IN_MOVED_FROM = IN_MOVED_FROM then .ok ("MOVED_FROM", w)
  else if ws.Mask &&& IN_MOVED_TO = IN_MOVED_TO then .ok ("MOVED_TO", w)
  else if ws.Mask &&& IN_MODIFY = IN_MODIFY then .ok ("MODIFY", w)
  else if ws.Mask &&& IN_ATTRIB = IN_ATTRIB then .ok ("ATTRIB", w)
  else if ws.Mask &&& IN_IGNORED = IN_IGNORED then
    if ws.hasWatch then
      match w.watchMap ws.watchId with
      | some e =>
        if e.remove then
          .ok ("REMOVE", { w with watchMap := setMap w.watchMap ws.watchId none })
        else .ok ("REMOVE", w)
      | none => .error ()
    else .ok ("REMOVE", w)
  else .ok ("ERROR", w)

/-- Classification as worded by the specification: classify the mask by the
    fixed priority order self-delete, self-move, create, delete, open, close,
    close-write, close-no-write, move, moved-from, moved-to, modify,
    attribute-change, terminal-ignored, else the unknown label.  Used only to
    compare `GetEventName` against the specification's wording. -/
def eventNameSpec (mask : Nat) : String :=
  if mask &&& IN_DELETE_SELF = IN_DELETE_SELF then "DELETE_SELF"
  else if mask &&& IN_MOVE_SELF = IN_MOVE_SELF then "MOVE_SELF"
  else if mask &&& IN_CREATE = IN_CREATE then "CREATE"
  else if mask &&& IN_DELETE = IN_DELETE then "DELETE"
  else if mask &&& IN_OPEN = IN_OPEN then "OPEN"
  else if mask &&& IN_CLOSE = IN_CLOSE then "CLOSE"
  else if mask &&& IN_CLOSE_WRITE = IN_CLOSE_WRITE then "CLOSE_WRITE"
  else if mask &&& IN_CLOSE_NOWRITE = IN_CLOSE_NOWRITE then "CLOSE_NOWRITE"
  else if mask &&& IN_MOVE = IN_MOVE then "MOVE"
  else if mask &&& IN_MOVED_FROM = IN_MOVED_FROM then "MOVED_FROM"
  else if mask &&& IN_MOVED_TO = IN_MOVED_TO then "MOVED_TO"
  else if mask &&& IN_MODIFY = IN_MODIFY then "MODIFY"
  else if mask &&& IN_ATTRIB = IN_ATTRIB then "ATTRIB"
  else if mask &&& IN_IGNORED = IN_IGNORED then "REMOVE"
  else "ERROR"

/-- `func (w *Watcher) AddWatch(path string, flags uint32) error`.

    The OS interactions are explicit inputs: `pathExists`/`isDir` stand for
    `os.Stat` (after `filepath.Abs`, out-of-scope glue), and `kernelWd` is the
    result of `syscall.InotifyAddWatch` (`none` = failure).  On success a
    fresh entry is created when the id is new — with a trailing path separator
    (byte 47) for a directory — and then `ws.flags |= flags` merges the
    requested flags.  The returned `Option String` is the Go error. -/
def AddWatch (w : Watcher) (path : Bytes) (pathExists : Bool) (isDir : Bool)
    (flags : Nat) (kernelWd : Option Nat) : Option String × Watcher :=
  if pathExists = false then (some "File or Dir not", w)
  else
    match kernelWd with
    | none => (some "inotify_add_watch error", w)
    | some wd =>
      let base : WatchSingle :=
        match w.watchMap wd with
        | some ws => ws
        | none =>
          { path := path ++ (if isDir then [47] else []), isDir := isDir,
            watchId := wd, flags := flags, hasWatch := true, remove := false,
            FileName := [], Mask := 0 }
      let ws1 := { base with flags := base.flags ||| flags }
      (none, { w with watchMap := setMap w.watchMap wd (some ws1) })

/-- Result of one `WaitEvent` call; `blocked` marks the suspension on the
    condition variable (the state where `bufferItem == 0` and the watcher is
    not closed), which a pure model cannot run through. -/
inductive WaitResult where
  | ev (ws : WatchSingle)
  | err (msg : String)
  | blocked
  deriving DecidableEq

/-- `func (w *Watcher) WaitEvent() (WatchSingle, error)`, on the states where
    it does not suspend: empty buffer and closed gives the closed error,
    a buffer shorter than one header gives the cross-lines error, otherwise
    one `forwardBuffer` call either yields the event or, on an unresolved
    watch id, the deleted-or-renamed error. -/
def WaitEvent (w : Watcher) : WaitResult × Watcher :=
  if w.bufferItem = 0 then
    if w.closes then (.err "The Watcher is closes", w) else (.blocked, w)
  else if w.bufferItem < SizeofInotifyEvent then
    (.err "The event bufferItem Cross Lines", w)
  else
    match forwardBuffer w with
    | (some ws, w1) => (.ev ws, w1)
    | (none, w1) => (.err "The monitored directory or file has been deleted or renamed", w1)

/-- One readable wake-up of `func (w *Watcher) epollWait()` for the inotify
    descriptor: when `bufferItem` exceeds `MAX_ITEM` one `forwardBuffer` call
    is forced, then `syscall.Read(w.inotifyFD, w.eventBuffer[w.bufferItem:])`
    appends at most the remaining capacity out of the kernel's pending bytes
    and `bufferItem` grows by the count actually read. -/
def epollWaitStep (w : Watcher) (pending : Bytes) : Watcher :=
  let w1 := if MAX_ITEM < w.bufferItem then (forwardBuffer w).2 else w
  let n := min pending.length (bufCap - w1.bufferItem)
  { w1 with eventBuffer :=
              w1.eventBuffer.take w1.bufferItem ++ pending.take n ++
                w1.eventBuffer.drop (w1.bufferItem + n),
            bufferItem := w1.bufferItem + n }

/-- `func (w *Watcher) Close()`: closes each descriptor that is not `-1`.
    The descriptors themselves are never reset, only the close calls are
    logged. -/
def Close (w : Watcher) : Watcher :=
  let w1 := if w.inotifyFD ≠ -1 then { w with closedLog := w.closedLog ++ [w.inotifyFD] } else w
  if w1.epollFD ≠ -1 then { w1 with closedLog := w1.closedLog ++ [w1.epollFD] } else w1

/-- The close syscalls a single `Close` call issues from state `w`. -/
def closeFds (w : Watcher) : List Int :=
  (if w.inotifyFD ≠ -1 then [w.inotifyFD] else []) ++
    (if w.epollFD ≠ -1 then [w.epollFD] else [])

/-- Iterate the parser `n` times, collecting the returned entries in call
    order. -/
def runParser : Nat → Watcher → List (Option WatchSingle) × Watcher
  | 0, w => ([], w)
  | n + 1, w =>
    let p := forwardBuffer w
    let q := runParser n p.2
    (p.1 :: q.1, q.2)

/-- The caller-visible part of a parsed event. -/
def eventView (o : Option WatchSingle) : Option (Bytes × Nat) :=
  o.map fun e => (e.FileName, e.Mask)

/-- The label a `GetEventName` call returns, `none` when the call panics. -/
def labelOf (x : Except Unit (String × Watcher)) : Option String :=
  match x with
  | .ok p => some p.1
  | .error _ => none

/-- Stored path of the entry registered under a watch id. -/
def pathOf (w : Watcher) (wd : Nat) : Bytes :=
  match w.watchMap wd with
  | some e => e.path
  | none => []

/-- The registry entry as `forwardBuffer` rewrites it when it consumes a
    record: the record's mask, and the stored path with the name bytes
    appended when the name length is positive. -/
def parsedEntry (e : WatchSingle) (r : InotifyEventRec) : WatchSingle :=
  { e with Mask := r.mask, FileName := if 0 < r.len then e.path ++ r.name else e.path }

/-- A sequence of `AddWatch` calls for the same path on which `os.Stat`
    succeeds and the kernel keeps answering with the same watch id,
    one call per element of `fs`. -/
def addAll (path : Bytes) (isDir : Bool) (wd : Nat) (fs : List Nat) (w : Watcher) : Watcher :=
  fs.foldl (fun w f => (AddWatch w path true isDir f (some wd)).2) w

/- Concrete states used by the closed evaluations and witnesses below.
   Byte 47 is the path separator, `[47, 100, 47]` is the directory path
   `"/d/"` as stored by `AddWatch`, and `[97, 46, 116, 120, 116]` is the
   child name `"a.txt"`. -/

/-- A directory entry as `AddWatch` would store it for watch id `wd`. -/
def sampleEntry (p : Bytes) (wd : Nat) : WatchSingle :=
  { path := p, isDir := true, watchId := wd, flags := 768, hasWatch := true,
    remove := false, FileName := [], Mask := 0 }

/-- Registry with the single directory `"/d/"` under watch id 1. -/
def sampleMap : Nat → Option WatchSingle :=
  fun k => if k = 1 then some (sampleEntry [47, 100, 47] 1) else none

/-- Kernel record: `"a.txt"` created in the watched directory; the kernel
    pads the name with NUL bytes up to the reported length 16. -/
def recCreate : InotifyEventRec :=
  { wd := 1, mask := 256, cookie := 0, len := 16,
    name := [97, 46, 116, 120, 116] ++ List.replicate 11 0 }

/-- Kernel record with no name (an event on the watched object itself). -/
def recNoName : InotifyEventRec :=
  { wd := 1, mask := 512, cookie := 0, len := 0, name := [] }

/-- Watcher whose buffer holds exactly the `recCreate` record. -/
def wCreate : Watcher :=
  { inotifyFD := 3, epollFD := 4, watchMap := sampleMap,
    eventBuffer := encode recCreate ++ List.replicate 368 0,
    bufferItem := 32, closes := false, rmLog := [], closedLog := [] }

/-- Watcher whose buffer holds the records `recCreate` then `recNoName`. -/
def wTwoRecords : Watcher :=
  { inotifyFD := 3, epollFD := 4, watchMap := sampleMap,
    eventBuffer := encodeList [recCreate, recNoName] ++ List.replicate 352 0,
    bufferItem := 48, closes := false, rmLog := [], closedLog := [] }

/-- Watcher whose buffered record names watch id 2, absent from the registry. -/
def wUntracked : Watcher :=
  { inotifyFD := 3, epollFD := 4, watchMap := sampleMap,
    eventBuffer := encode { recCreate with wd := 2 } ++ List.replicate 368 0,
    bufferItem := 32, closes := false, rmLog := [], closedLog := [] }

/-- Watcher holding only the 16 header bytes of a record whose `len` field
    claims 100 more name bytes: a record split by a truncated append. -/
def wSplit : Watcher :=
  { inotifyFD := 3, epollFD := 4, watchMap := sampleMap,
    eventBuffer := encode { wd := 1, mask := 256, cookie := 0, len := 100, name := [] } ++
      List.replicate 384 0,
    bufferItem := 16, closes := false, rmLog := [], closedLog := [] }

/-- A freshly constructed watcher with both descriptors open. -/
def wFresh : Watcher :=
  { inotifyFD := 3, epollFD := 4, watchMap := fun _ => none,
    eventBuffer := List.replicate 400 0, bufferItem := 0, closes := false,
    rmLog := [], closedLog := [] }

theorem u32le_length (x : Nat) : (u32le x).length = 4 := by
  simp [u32le]

theorem readU32_u32le (x : Nat) (t : Bytes) (hx : x < U32) :
    readU32 (u32le x ++ t) = x := by
  simp only [u32le, List.cons_append, List.nil_append, readU32, List.getD_cons_zero,
    List.getD_cons_succ, U32] at *
  omega

theorem drop4_u32le (x : Nat) (t : Bytes) : (u32le x ++ t).drop 4 = t := by
  simp [u32le]

theorem encode_length (r : InotifyEventRec) :
    (encode r).length = SizeofInotifyEvent + r.name.length := by
  simp [encode, u32le, SizeofInotifyEvent]
  omega

theorem drop_u32le (x : Nat) (t : Bytes) (n : Nat) :
    (u32le x ++ t).drop (4 + n) = t.drop n := by
  have h : 4 + n = n + 1 + 1 + 1 + 1 := by omega
  rw [h]
  simp [u32le, List.drop_succ_cons]

theorem encode_decomp (r : InotifyEventRec) (t : Bytes) :
    encode r ++ t =
      u32le r.wd ++ (u32le r.mask ++ (u32le r.cookie ++ (u32le r.len ++ (r.name ++ t)))) := by
  simp [encode, List.append_assoc]

theorem readU32_encode_wd (r : InotifyEventRec) (t : Bytes) (h : r.wd < U32) :
    readU32 (encode r ++ t) = r.wd := by
  rw [encode_decomp, readU32_u32le _ _ h]

theorem readU32_encode_mask (r : InotifyEventRec) (t : Bytes) (h : r.mask < U32) :
    readU32 ((encode r ++ t).drop 4) = r.mask := by
  rw [encode_decomp, drop4_u32le, readU32_u32le _ _ h]

theorem readU32_encode_len (r : InotifyEventRec) (t : Bytes) (h : r.len < U32) :
    readU32 ((encode r ++ t).drop 12) = r.len := by
  have h12 : (12 : Nat) = 4 + 8 := by omega
  have h8 : (8 : Nat) = 4 + 4 := by omega
  have h4 : (4 : Nat) = 4 + 0 := by omega
  rw [encode_decomp, h12, drop_u32le, h8, drop_u32le, h4, drop_u32le, List.drop_zero,
    readU32_u32le _ _ h]

theorem drop16_encode (r : InotifyEventRec) (t : Bytes) :
    (encode r ++ t).drop 16 = r.name ++ t := by
  have h16 : (16 : Nat) = 4 + 12 := by omega
  have h12 : (12 : Nat) = 4 + 8 := by omega
  have h8 : (8 : Nat) = 4 + 4 := by omega
  have h4 : (4 : Nat) = 4 + 0 := by omega
  rw [encode_decomp, h16, drop_u32le, h12, drop_u32le, h8, drop_u32le, h4, drop_u32le,
    List.drop_zero]

/-- Consuming one fully buffered, registry-resolvable record: the parser
    returns the entry updated with the record's mask and filename, the record's
    bytes leave the front of the buffer, and the byte count drops by exactly
    the record length, without wrap-around. -/
theorem forwardBuffer_encode (w : Watcher) (r : InotifyEventRec) (e : WatchSingle) (t : Bytes)
    (hwf : wfRecord r)
    (he : w.watchMap r.wd = some e)
    (hlen : (encode r).length ≤ w.bufferItem)
    (hcap : w.bufferItem ≤ bufCap)
    (hbuf : w.eventBuffer = encode r ++ t) :
    forwardBuffer w =
      (some (parsedEntry e r),
       { w with watchMap := setMap w.watchMap r.wd (some (parsedEntry e r)),
                eventBuffer := t ++ (encode r ++ t).drop (bufCap - (encode r).length),
                bufferItem := w.bufferItem - (encode r).length }) := by
  obtain ⟨hname, hwd, hmask, hcookie, hlen32⟩ := hwf
  have hL : (encode r).length = 16 + r.len := by
    rw [encode_length, hname]; rfl
  have hLcap : (encode r).length ≤ bufCap := le_trans hlen hcap
  have hr1 : readU32 (encode r ++ t) = r.wd := readU32_encode_wd _ _ hwd
  have hr2 : readU32 ((encode r ++ t).drop 4) = r.mask := readU32_encode_mask _ _ hmask
  have hr3 : readU32 ((encode r ++ t).drop 12) = r.len := readU32_encode_len _ _ hlen32
  have hr4 : ((encode r ++ t).drop 16).take r.len = r.name := by
    rw [drop16_encode, ← hname, List.take_left]
  have hoff : (if 0 < r.len then (SizeofInotifyEvent + r.len) % U32 else SizeofInotifyEvent)
      = (encode r).length := by
    by_cases h0 : 0 < r.len
    · have hlt : 16 + r.len < 4294967296 := by
        have hb := hL ▸ hLcap
        simp only [bufCap, SizeofInotifyEvent] at hb
        omega
      rw [if_pos h0, hL]
      simp only [SizeofInotifyEvent, U32]
      omega
    · have h0' : r.len = 0 := by omega
      simp [h0, hL, h0', SizeofInotifyEvent]
  have hdropL : (encode r ++ t).drop (encode r).length = t := List.drop_left _ _
  have hsub : (w.bufferItem + (U32 - (encode r).length)) % U32
      = w.bufferItem - (encode r).length := by
    have h1 : (encode r).length ≤ w.bufferItem := hlen
    have h2 : w.bufferItem ≤ bufCap := hcap
    simp only [U32, bufCap, SizeofInotifyEvent] at *
    omega
  rw [forwardBuffer, hbuf]
  simp only [hr1, hr2, hr3, hr4, he, hoff, hdropL, hsub, parsedEntry]

/-- C2: for every buffer state holding N well-formed, registry-resolvable
    records front-to-back, N calls to `forwardBuffer` return exactly the N
    events in the original order — each carrying its record's mask and the
    entry's stored path with the record's name appended when the name length
    is positive — and afterwards `bufferItem` is 0. -/
theorem forwardBuffer_parses_all_records (rs : List InotifyEventRec) (w : Watcher)
    (rest : Bytes)
    (hwf : ∀ r ∈ rs, wfRecord r)
    (hres : ∀ r ∈ rs, (w.watchMap r.wd).isSome)
    (hbuf : w.eventBuffer = encodeList rs ++ rest)
    (hitem : w.bufferItem = (encodeList rs).length)
    (hcap : w.bufferItem ≤ bufCap) :
    (runParser rs.length w).1.map eventView =
        rs.map (fun r => some (pathOf w r.wd ++ (if 0 < r.len then r.name else []), r.mask)) ∧
      (runParser rs.length w).2.bufferItem = 0 := by
  induction rs generalizing w rest with
  | nil =>
    refine ⟨by simp [runParser], ?_⟩
    simpa [runParser, encodeList] using hitem
  | cons r rs ih =>
    have hwfr : wfRecord r := hwf r (by simp)
    obtain ⟨e, he⟩ := Option.isSome_iff_exists.mp (hres r (by simp))
    have hcons : encodeList (r :: rs) = encode r ++ encodeList rs := rfl
    have hlen : (encode r).length ≤ w.bufferItem := by
      rw [hitem, hcons]; simp
    have hbuf1 : w.eventBuffer = encode r ++ (encodeList rs ++ rest) := by
      rw [hbuf, hcons, List.append_assoc]
    have hstep := forwardBuffer_encode w r e (encodeList rs ++ rest) hwfr he hlen hcap hbuf1
    set w1 : Watcher :=
      { w with watchMap := setMap w.watchMap r.wd (some (parsedEntry e r)),
               eventBuffer := (encodeList rs ++ rest) ++
                 (encode r ++ (encodeList rs ++ rest)).drop (bufCap - (encode r).length),
               bufferItem := w.bufferItem - (encode r).length } with hw1
    have hres1 : ∀ r' ∈ rs, (w1.watchMap r'.wd).isSome := by
      intro r' hr'
      by_cases hwd : r'.wd = r.wd
      · simp [hw1, setMap, hwd]
      · simpa [hw1, setMap, hwd] using hres r' (by simp [hr'])
    have hbuf2 : w1.eventBuffer = encodeList rs ++
        (rest ++ (encode r ++ (encodeList rs ++ rest)).drop (bufCap - (encode r).length)) := by
      simp [hw1, List.append_assoc]
    have hitem2 : w1.bufferItem = (encodeList rs).length := by
      simp only [hw1]
      rw [hitem, hcons]
      simp
    have hcap2 : w1.bufferItem ≤ bufCap := by
      simp only [hw1]
      omega
    have hpath : ∀ r' ∈ rs, pathOf w1 r'.wd = pathOf w r'.wd := by
      intro r' _
      by_cases hwd : r'.wd = r.wd
      · simp [hw1, pathOf, setMap, hwd, he, parsedEntry]
      · simp [hw1, pathOf, setMap, hwd]
    obtain ⟨hIH1, hIH2⟩ :=
      ih w1 _ (fun r' h => hwf r' (by simp [h])) hres1 hbuf2 hitem2 hcap2
    have hfb1 : (forwardBuffer w).1 = some (parsedEntry e r) := by rw [hstep]
    have hfb2 : (forwardBuffer w).2 = w1 := by rw [hstep]
    refine ⟨?_, ?_⟩
    · show ((forwardBuffer w).1 ::
          (runParser rs.length (forwardBuffer w).2).1).map eventView = _
      rw [hfb1, hfb2, List.map_cons, hIH1, List.map_cons]
      congr 1
      · simp only [eventView, parsedEntry, Option.map_some, pathOf, he]
        by_cases h0 : 0 < r.len <;> simp [h0]
      · exact List.map_congr_left fun r' h => by rw [hpath r' h]
    · show (runParser rs.length (forwardBuffer w).2).2.bufferItem = 0
      rw [hfb2]
      exact hIH2

set_option maxRecDepth 8000 in
/-- C2 witness: two buffered records (a CREATE with name `"a.txt"` and a
    nameless DELETE) are returned in order by two parser calls and leave the
    buffer empty. -/
theorem forwardBuffer_parses_all_records_witness :
    (∀ r ∈ [recCreate, recNoName], wfRecord r ∧ (wTwoRecords.watchMap r.wd).isSome) ∧
      ((runParser 2 wTwoRecords).1.map eventView =
          [recCreate, recNoName].map
            (fun r => some (pathOf wTwoRecords r.wd ++ (if 0 < r.len then r.name else []), r.mask)) ∧
        (runParser 2 wTwoRecords).2.bufferItem = 0) :=
  ⟨by decide,
    forwardBuffer_parses_all_records [recCreate, recNoName] wTwoRecords
      (List.replicate 352 0) (by decide) (by decide) (by decide) (by decide) (by decide)⟩

/-- The unresolved-watch-id branch of `forwardBuffer`: nothing is returned and
    the whole buffer is discarded. -/
theorem forwardBuffer_none_eq (w : Watcher)
    (hun : w.watchMap (readU32 w.eventBuffer) = none) :
    forwardBuffer w =
      (none,
        { w with eventBuffer :=
                   w.eventBuffer.drop w.bufferItem ++ w.eventBuffer.drop (bufCap - w.bufferItem),
                 bufferItem := 0 }) := by
  rw [forwardBuffer]
  simp [hun]

/-- The resolved branch of `forwardBuffer` when the whole record — header plus
    the `len` field's worth of name bytes — is inside the buffered span: the
    byte counter drops by exactly the record size, with no `uint32` wrap. -/
theorem forwardBuffer_some_complete (w : Watcher) (e : WatchSingle)
    (he : w.watchMap (readU32 w.eventBuffer) = some e)
    (hcap : w.bufferItem ≤ bufCap)
    (hcomp : SizeofInotifyEvent + readU32 (w.eventBuffer.drop 12) ≤ w.bufferItem) :
    (forwardBuffer w).2.bufferItem =
        w.bufferItem - (SizeofInotifyEvent + readU32 (w.eventBuffer.drop 12)) ∧
      (forwardBuffer w).2.eventBuffer =
        w.eventBuffer.drop (SizeofInotifyEvent + readU32 (w.eventBuffer.drop 12)) ++
          w.eventBuffer.drop (bufCap - (SizeofInotifyEvent + readU32 (w.eventBuffer.drop 12))) := by
  have hoff : (if 0 < readU32 (w.eventBuffer.drop 12) then
        (SizeofInotifyEvent + readU32 (w.eventBuffer.drop 12)) % U32
      else SizeofInotifyEvent) = SizeofInotifyEvent + readU32 (w.eventBuffer.drop 12) := by
    by_cases h0 : 0 < readU32 (w.eventBuffer.drop 12)
    · rw [if_pos h0, Nat.mod_eq_of_lt]
      simp only [SizeofInotifyEvent, U32, bufCap] at *
      omega
    · rw [if_neg h0]
      omega
  have hsub : (w.bufferItem + (U32 - (SizeofInotifyEvent + readU32 (w.eventBuffer.drop 12)))) % U32
      = w.bufferItem - (SizeofInotifyEvent + readU32 (w.eventBuffer.drop 12)) := by
    simp only [SizeofInotifyEvent, U32, bufCap] at *
    omega
  rw [forwardBuffer]
  simp only [he, hoff, hsub]
  exact ⟨trivial, trivial⟩

/-- C5: when the record at the front of the buffer names a watch id absent
    from the registry, the whole buffer is discarded (`bufferItem` becomes 0,
    later records included) and `WaitEvent` returns the distinct
    deleted-or-renamed error instead of an event. -/
theorem waitEvent_untracked_id_discards_buffer (w : Watcher)
    (hge : SizeofInotifyEvent ≤ w.bufferItem)
    (hun : w.watchMap (readU32 w.eventBuffer) = none) :
    (WaitEvent w).1 = .err "The monitored directory or file has been deleted or renamed" ∧
      (WaitEvent w).2.bufferItem = 0 := by
  have hne : ¬ w.bufferItem = 0 := by
    simp only [SizeofInotifyEvent] at hge
    omega
  have hlt : ¬ w.bufferItem < SizeofInotifyEvent := by omega
  rw [WaitEvent, forwardBuffer_none_eq w hun]
  simp [hne, hlt]

/-- C5 witness: a buffered record for the untracked watch id 2. -/
theorem waitEvent_untracked_id_discards_buffer_witness :
    (SizeofInotifyEvent ≤ wUntracked.bufferItem ∧
        wUntracked.watchMap (readU32 wUntracked.eventBuffer) = none) ∧
      ((WaitEvent wUntracked).1 =
          .err "The monitored directory or file has been deleted or renamed" ∧
        (WaitEvent wUntracked).2.bufferItem = 0) :=
  ⟨by decide, waitEvent_untracked_id_discards_buffer wUntracked (by decide) (by decide)⟩

/-- C9: consuming a resolvable record preserves `bufferItem ≤ bufCap` and the
    `uint32` subtraction does not underflow exactly under the precondition
    that the record is completely buffered (`SizeofInotifyEvent + Len ≤
    bufferItem`); without that precondition the subtraction can wrap, as the
    final conjunct shows on a state holding only the 16 header bytes of a
    record whose `Len` field claims 100 more. -/
theorem forwardBuffer_counter_safe_iff_record_complete (w : Watcher) (e : WatchSingle)
    (he : w.watchMap (readU32 w.eventBuffer) = some e)
    (hcap : w.bufferItem ≤ bufCap)
    (hcomp : SizeofInotifyEvent + readU32 (w.eventBuffer.drop 12) ≤ w.bufferItem) :
    (forwardBuffer w).2.bufferItem =
        w.bufferItem - (SizeofInotifyEvent + readU32 (w.eventBuffer.drop 12)) ∧
      (forwardBuffer w).2.bufferItem ≤ bufCap ∧
      (wSplit.bufferItem ≤ bufCap ∧ (wSplit.watchMap (readU32 wSplit.eventBuffer)).isSome ∧
        bufCap < (forwardBuffer wSplit).2.bufferItem) := by
  obtain ⟨h1, _⟩ := forwardBuffer_some_complete w e he hcap hcomp
  refine ⟨h1, ?_, by decide⟩
  rw [h1]
  omega

/-- C9 witness: the fully buffered CREATE record of `wCreate` is consumed
    without wrap-around, leaving 368 valid bytes of 400. -/
theorem forwardBuffer_counter_safe_iff_record_complete_witness :
    ((wCreate.watchMap (readU32 wCreate.eventBuffer)).isSome ∧
        wCreate.bufferItem ≤ bufCap ∧
        SizeofInotifyEvent + readU32 (wCreate.eventBuffer.drop 12) ≤ wCreate.bufferItem) ∧
      ((forwardBuffer wCreate).2.bufferItem =
          wCreate.bufferItem - (SizeofInotifyEvent + readU32 (wCreate.eventBuffer.drop 12)) ∧
        (forwardBuffer wCreate).2.bufferItem ≤ bufCap ∧
        (wSplit.bufferItem ≤ bufCap ∧ (wSplit.watchMap (readU32 wSplit.eventBuffer)).isSome ∧
          bufCap < (forwardBuffer wSplit).2.bufferItem)) :=
  ⟨by decide,
    forwardBuffer_counter_safe_iff_record_complete wCreate (sampleEntry [47, 100, 47] 1)
      (by decide) (by decide) (by decide)⟩

set_option maxHeartbeats 1000000 in
/-- C3: for every mask, `GetEventName` returns exactly the one label chosen
    by the specification's fixed priority order (`eventNameSpec`), whenever
    its registry side effects do not hit an untracked id. -/
theorem getEventName_label_follows_priority (ws : WatchSingle) (w : Watcher)
    (h : ws.hasWatch = true → (w.watchMap ws.watchId).isSome) :
    labelOf (GetEventName ws w) = some (eventNameSpec ws.Mask) := by
  have hB : ws.hasWatch = false ∨ ∃ e, w.watchMap ws.watchId = some e := by
    cases hW : ws.hasWatch
    · exact .inl rfl
    · exact .inr (Option.isSome_iff_exists.mp (h hW))
  rcases hB with hW | ⟨e, he⟩
  · rw [GetEventName, eventNameSpec, hW]
    simp only [Bool.false_eq_true, if_false, apply_ite labelOf, apply_ite some, ite_self]
    simp only [labelOf, ite_self]
  · rw [GetEventName, eventNameSpec, he]
    dsimp only
    cases hw2 : ws.hasWatch
    · simp only [hw2, Bool.false_eq_true, if_false, apply_ite labelOf, apply_ite some,
        ite_self]
      simp only [labelOf, ite_self]
    · simp only [hw2, eq_self_iff_true, if_true, apply_ite labelOf, apply_ite some,
        ite_self]
      simp only [labelOf, ite_self]

/-- C3 witness: a mask with both close bits and the open bit set classifies
    as OPEN, the higher-priority label. -/
theorem getEventName_label_follows_priority_witness :
    (({ sampleEntry [47, 100, 47] 1 with Mask := 56 }.hasWatch = true →
        (wCreate.watchMap { sampleEntry [47, 100, 47] 1 with Mask := 56 }.watchId).isSome) ∧
        eventNameSpec 56 = "OPEN") ∧
      labelOf (GetEventName { sampleEntry [47, 100, 47] 1 with Mask := 56 } wCreate) =
        some (eventNameSpec { sampleEntry [47, 100, 47] 1 with Mask := 56 }.Mask) :=
  ⟨by decide,
    getEventName_label_follows_priority { sampleEntry [47, 100, 47] 1 with Mask := 56 }
      wCreate (by decide)⟩

/-- C10: with the back-reference non-nil and the self-delete or self-move bit
    set, `GetEventName` writes through the unchecked registry lookup, so it is
    panic-free exactly when the watch id is still tracked; on an untracked id
    the nil dereference (modelled by `Except.error`) occurs. -/
theorem getEventName_self_event_panics_iff_untracked (ws : WatchSingle) (w : Watcher)
    (hhw : ws.hasWatch = true)
    (hbit : ws.Mask &&& IN_DELETE_SELF = IN_DELETE_SELF ∨
      ws.Mask &&& IN_MOVE_SELF = IN_MOVE_SELF) :
    (∃ out, GetEventName ws w = .ok out) ↔ (w.watchMap ws.watchId).isSome := by
  by_cases h1 : ws.Mask &&& IN_DELETE_SELF = IN_DELETE_SELF
  · rw [GetEventName, if_pos h1]
    cases hm : w.watchMap ws.watchId <;> simp [hhw, hm]
  · have h2 : ws.Mask &&& IN_MOVE_SELF = IN_MOVE_SELF := hbit.resolve_left h1
    rw [GetEventName, if_neg h1, if_pos h2]
    cases hm : w.watchMap ws.watchId <;> simp [hhw, hm]

/-- C10 witness: a self-delete event for the still-tracked id 1 classifies
    without panic; the same event for the untracked id 2 panics. -/
theorem getEventName_self_event_panics_iff_untracked_witness :
    (({ sampleEntry [47, 100, 47] 1 with Mask := 1024 }.hasWatch = true ∧
        ({ sampleEntry [47, 100, 47] 1 with Mask := 1024 }.Mask &&& IN_DELETE_SELF =
            IN_DELETE_SELF ∨
          { sampleEntry [47, 100, 47] 1 with Mask := 1024 }.Mask &&& IN_MOVE_SELF =
            IN_MOVE_SELF)) ∧
      ((∃ out, GetEventName { sampleEntry [47, 100, 47] 1 with Mask := 1024 } wCreate =
            .ok out) ↔
        (wCreate.watchMap { sampleEntry [47, 100, 47] 1 with Mask := 1024 }.watchId).isSome)) ∧
      (GetEventName { sampleEntry [47, 100, 47] 2 with watchId := 2, Mask := 1024 }
          wCreate).isOk = false :=
  ⟨⟨by decide,
      getEventName_self_event_panics_iff_untracked
        { sampleEntry [47, 100, 47] 1 with Mask := 1024 } wCreate (by decide)
        (by decide)⟩,
    by decide⟩

/-- C8: classifying a self-move event for a tracked entry marks it
    pending-removal and logs a kernel deregistration of its id; classifying a
    subsequent terminal-ignored event for the same id deletes the entry, and
    the registry lookup afterwards is absent. -/
theorem selfMove_then_ignored_finalizes_entry (w : Watcher) (wd : Nat)
    (e b : WatchSingle) (he : w.watchMap wd = some e) :
    ∃ w1 w2,
      GetEventName { b with watchId := wd, hasWatch := true, Mask := IN_MOVE_SELF } w =
          .ok ("MOVE_SELF", w1) ∧
        w1.watchMap wd = some { e with remove := true } ∧
        w1.rmLog = w.rmLog ++ [wd] ∧
        GetEventName { b with watchId := wd, hasWatch := true, Mask := IN_IGNORED } w1 =
            .ok ("REMOVE", w2) ∧
        w2.watchMap wd = none := by
  have c1 : ¬ IN_MOVE_SELF &&& IN_DELETE_SELF = IN_DELETE_SELF := by decide
  have c2 : IN_MOVE_SELF &&& IN_MOVE_SELF = IN_MOVE_SELF := by decide
  have d1 : ¬ IN_IGNORED &&& IN_DELETE_SELF = IN_DELETE_SELF := by decide
  have d2 : ¬ IN_IGNORED &&& IN_MOVE_SELF = IN_MOVE_SELF := by decide
  have d3 : ¬ IN_IGNORED &&& IN_CREATE = IN_CREATE := by decide
  have d4 : ¬ IN_IGNORED &&& IN_DELETE = IN_DELETE := by decide
  have d5 : ¬ IN_IGNORED &&& IN_OPEN = IN_OPEN := by decide
  have d6 : ¬ IN_IGNORED &&& IN_CLOSE = IN_CLOSE := by decide
  have d7 : ¬ IN_IGNORED &&& IN_CLOSE_WRITE = IN_CLOSE_WRITE := by decide
  have d8 : ¬ IN_IGNORED &&& IN_CLOSE_NOWRITE = IN_CLOSE_NOWRITE := by decide
  have d9 : ¬ IN_IGNORED &&& IN_MOVE = IN_MOVE := by decide
  have d10 : ¬ IN_IGNORED &&& IN_MOVED_FROM = IN_MOVED_FROM := by decide
  have d11 : ¬ IN_IGNORED &&& IN_MOVED_TO = IN_MOVED_TO := by decide
  have d12 : ¬ IN_IGNORED &&& IN_MODIFY = IN_MODIFY := by decide
  have d13 : ¬ IN_IGNORED &&& IN_ATTRIB = IN_ATTRIB := by decide
  have d14 : IN_IGNORED &&& IN_IGNORED = IN_IGNORED := by decide
  refine ⟨{ w with watchMap := setMap w.watchMap wd (some { e with remove := true }), rmLog := w.rmLog ++ [wd] }, { w with watchMap := setMap (setMap w.watchMap wd (some { e with remove := true })) wd none, rmLog := w.rmLog ++ [wd] }, ?_, ?_, ?_, ?_, ?_⟩
  · rw [GetEventName]
    dsimp only
    rw [if_neg c1, if_pos c2, if_pos rfl, he]
  · simp [setMap]
  · rfl
  · rw [GetEventName]
    dsimp only
    rw [if_neg d1, if_neg d2, if_neg d3, if_neg d4, if_neg d5, if_neg d6, if_neg d7,
      if_neg d8, if_neg d9, if_neg d10, if_neg d11, if_neg d12, if_neg d13, if_pos d14,
      if_pos rfl]
    have hw1 : setMap w.watchMap wd (some { e with remove := true }) wd =
        some { e with remove := true } := by simp [setMap]
    rw [hw1]
    rfl
  · simp [setMap]

/-- C8 witness: the tracked directory entry under watch id 1. -/
theorem selfMove_then_ignored_finalizes_entry_witness :
    wCreate.watchMap 1 = some (sampleEntry [47, 100, 47] 1) ∧
      ∃ w1 w2,
        GetEventName { sampleEntry [47, 100, 47] 1 with watchId := 1, hasWatch := true, Mask := IN_MOVE_SELF } wCreate = .ok ("MOVE_SELF", w1) ∧
          w1.watchMap 1 = some { sampleEntry [47, 100, 47] 1 with remove := true } ∧
          w1.rmLog = wCreate.rmLog ++ [1] ∧
          GetEventName { sampleEntry [47, 100, 47] 1 with watchId := 1, hasWatch := true, Mask := IN_IGNORED } w1 = .ok ("REMOVE", w2) ∧
          w2.watchMap 1 = none :=
  ⟨by decide,
    selfMove_then_ignored_finalizes_entry wCreate 1 (sampleEntry [47, 100, 47] 1)
      (sampleEntry [47, 100, 47] 1) (by decide)⟩

set_option maxRecDepth 8000 in
/-- C1, evaluated at the end-to-end example: creating `"a.txt"` in the watched
    directory `"/d/"` yields an event with the CREATE mask whose `FileName` is
    the stored path followed by all 16 name bytes — the 5 bytes of `"a.txt"`
    and the 11 NUL padding bytes, which `forwardBuffer` does not discard — and
    therefore not the claimed `"/d/a.txt"`. -/
theorem forwardBuffer_keeps_nul_padding :
    eventView (forwardBuffer wCreate).1 =
        some ([47, 100, 47] ++ ([97, 46, 116, 120, 116] ++ List.replicate 11 0), 256) ∧
      ([47, 100, 47] ++ ([97, 46, 116, 120, 116] ++ List.replicate 11 0) : Bytes) ≠
        [47, 100, 47] ++ [97, 46, 116, 120, 116] :=
  ⟨by decide, by decide⟩

/-- Flags accumulated by `addAll` on an id already present in the registry:
    each call unions its requested flags into the one existing entry and
    leaves every other id untouched. -/
theorem addAll_existing (path : Bytes) (isDir : Bool) (wd : Nat) (fs : List Nat) :
    ∀ (w : Watcher) (e : WatchSingle), w.watchMap wd = some e →
      (addAll path isDir wd fs w).watchMap wd =
          some { e with flags := fs.foldl (fun a b => a ||| b) e.flags } ∧
        ∀ k, k ≠ wd → (addAll path isDir wd fs w).watchMap k = w.watchMap k := by
  induction fs with
  | nil =>
    intro w e he
    exact ⟨he, fun k hk => rfl⟩
  | cons f fs ih =>
    intro w e he
    have hstep : (AddWatch w path true isDir f (some wd)).2 =
        { w with watchMap := setMap w.watchMap wd (some { e with flags := e.flags ||| f }) } := by
      rw [AddWatch]
      simp [he]
    have hone : addAll path isDir wd (f :: fs) w =
        addAll path isDir wd fs (AddWatch w path true isDir f (some wd)).2 := rfl
    rw [hone, hstep]
    have hmem : ({ w with watchMap := setMap w.watchMap wd (some { e with flags := e.flags ||| f }) } : Watcher).watchMap wd = some { e with flags := e.flags ||| f } := by
      simp [setMap]
    obtain ⟨h1, h2⟩ := ih _ { e with flags := e.flags ||| f } hmem
    refine ⟨h1, fun k hk => ?_⟩
    rw [h2 k hk]
    simp [setMap, hk]

/-- C4: a sequence of successful `AddWatch` calls on one path, with the kernel
    answering the same watch id each time, leaves exactly one registry entry
    for that path, whose flags are the union of all requested flags; and a
    failed registration never mutates the registry. -/
theorem addWatch_single_entry_union_flags (w0 : Watcher) (path : Bytes) (isDir : Bool)
    (wd : Nat) (f : Nat) (fs : List Nat)
    (hfresh : w0.watchMap wd = none)
    (hpath : ∀ k e, w0.watchMap k = some e → e.path ≠ path ++ (if isDir then [47] else [])) :
    (∃ e, (addAll path isDir wd (f :: fs) w0).watchMap wd = some e ∧
        e.path = path ++ (if isDir then [47] else []) ∧
        e.flags = fs.foldl (fun a b => a ||| b) f) ∧
      (∀ k e, (addAll path isDir wd (f :: fs) w0).watchMap k = some e →
        e.path = path ++ (if isDir then [47] else []) → k = wd) ∧
      (∀ (w : Watcher) (p : Bytes) (pe d : Bool) (fl : Nat) (kwd : Option Nat),
        (AddWatch w p pe d fl kwd).1.isSome → (AddWatch w p pe d fl kwd).2 = w) := by
  have hfirst : (AddWatch w0 path true isDir f (some wd)).2 =
      { w0 with watchMap := setMap w0.watchMap wd (some { path := path ++ (if isDir then [47] else []), isDir := isDir, watchId := wd, flags := f ||| f, hasWatch := true, remove := false, FileName := [], Mask := 0 }) } := by
    rw [AddWatch]
    simp [hfresh]
  have hone : addAll path isDir wd (f :: fs) w0 =
      addAll path isDir wd fs (AddWatch w0 path true isDir f (some wd)).2 := rfl
  have hmem : ((AddWatch w0 path true isDir f (some wd)).2).watchMap wd =
      some { path := path ++ (if isDir then [47] else []), isDir := isDir, watchId := wd, flags := f ||| f, hasWatch := true, remove := false, FileName := [], Mask := 0 } := by
    rw [hfirst]
    simp [setMap]
  obtain ⟨h1, h2⟩ := addAll_existing path isDir wd fs _ _ hmem
  have hothers : ∀ k, k ≠ wd →
      (addAll path isDir wd (f :: fs) w0).watchMap k = w0.watchMap k := by
    intro k hk
    rw [hone, h2 k hk, hfirst]
    simp [setMap, hk]
  refine ⟨⟨_, by rw [hone]; exact h1, rfl, ?_⟩, ?_, ?_⟩
  · simp [Nat.or_self]
  · intro k e hk hp
    by_contra hne
    exact hpath k e (by rw [← hothers k hne]; exact hk) hp
  · intro w p pe d fl kwd hsome
    rw [AddWatch.eq_def] at hsome ⊢
    by_cases hpe : pe = false
    · simp [hpe]
    · have hpe' : pe = true := by
        cases pe
        · exact absurd rfl hpe
        · rfl
      cases kwd with
      | none => simp [hpe']
      | some k => cases hm : w.watchMap k <;> simp [hpe', hm] at hsome


/-- C4 witness: two successful calls with flags CREATE then DELETE on the
    fresh watcher leave one entry with flags CREATE|DELETE = 768. -/
theorem addWatch_single_entry_union_flags_witness :
    wFresh.watchMap 1 = none ∧
      ((∃ e, (addAll [47, 100] true 1 (256 :: [512]) wFresh).watchMap 1 = some e ∧
          e.path = [47, 100] ++ (if true then [47] else []) ∧
          e.flags = [512].foldl (fun a b => a ||| b) 256) ∧
        (∀ k e, (addAll [47, 100] true 1 (256 :: [512]) wFresh).watchMap k = some e →
          e.path = [47, 100] ++ (if true then [47] else []) → k = 1) ∧
        (∀ (w : Watcher) (p : Bytes) (pe d : Bool) (fl : Nat) (kwd : Option Nat),
          (AddWatch w p pe d fl kwd).1.isSome → (AddWatch w p pe d fl kwd).2 = w)) :=
  ⟨rfl,
    addWatch_single_entry_union_flags wFresh [47, 100] true 1 256 [512] rfl
      (fun _ _ h => nomatch h)⟩

/-- C6: on a readable wake-up, an over-watermark buffer forces exactly one
    parse before the append, and the read is truncated to the remaining
    capacity: the byte count grows by `min` of the pending bytes and the free
    space, never exceeds `bufCap`, and the bytes already buffered after the
    forced parse stay in place. -/
theorem epollWaitStep_overflow_policy (w : Watcher) (pending : Bytes)
    (hlen : w.eventBuffer.length = bufCap)
    (hcap : w.bufferItem ≤ bufCap)
    (hpre : MAX_ITEM < w.bufferItem →
      w.watchMap (readU32 w.eventBuffer) = none ∨
        SizeofInotifyEvent + readU32 (w.eventBuffer.drop 12) ≤ w.bufferItem) :
    (epollWaitStep w pending).bufferItem =
        (if MAX_ITEM < w.bufferItem then (forwardBuffer w).2 else w).bufferItem +
          min pending.length
            (bufCap - (if MAX_ITEM < w.bufferItem then (forwardBuffer w).2 else w).bufferItem) ∧
      (epollWaitStep w pending).bufferItem ≤ bufCap ∧
      (epollWaitStep w pending).eventBuffer.take
          (if MAX_ITEM < w.bufferItem then (forwardBuffer w).2 else w).bufferItem =
        (if MAX_ITEM < w.bufferItem then (forwardBuffer w).2 else w).eventBuffer.take
          (if MAX_ITEM < w.bufferItem then (forwardBuffer w).2 else w).bufferItem := by
  set w1 := if MAX_ITEM < w.bufferItem then (forwardBuffer w).2 else w with hw1
  have hkey : w1.bufferItem ≤ bufCap ∧ w1.eventBuffer.length = bufCap := by
    by_cases hm : MAX_ITEM < w.bufferItem
    · rw [hw1, if_pos hm]
      cases hres : w.watchMap (readU32 w.eventBuffer) with
      | none =>
        rw [forwardBuffer_none_eq w hres]
        refine ⟨by simp, ?_⟩
        simp only [List.length_append, List.length_drop, hlen]
        omega
      | some e =>
        have hcomp : SizeofInotifyEvent + readU32 (w.eventBuffer.drop 12) ≤ w.bufferItem := by
          rcases hpre hm with h | h
          · rw [hres] at h
            exact absurd h (by simp)
          · exact h
        obtain ⟨hb, hbuf⟩ := forwardBuffer_some_complete w e hres hcap hcomp
        refine ⟨by rw [hb]; omega, ?_⟩
        rw [hbuf]
        simp only [List.length_append, List.length_drop, hlen]
        omega
    · rw [hw1, if_neg hm]
      exact ⟨hcap, hlen⟩
  obtain ⟨hb1, hlen1⟩ := hkey
  have hstep : epollWaitStep w pending = { w1 with eventBuffer := w1.eventBuffer.take w1.bufferItem ++ pending.take (min pending.length (bufCap - w1.bufferItem)) ++ w1.eventBuffer.drop (w1.bufferItem + min pending.length (bufCap - w1.bufferItem)), bufferItem := w1.bufferItem + min pending.length (bufCap - w1.bufferItem) } := rfl
  refine ⟨by rw [hstep], ?_, ?_⟩
  · rw [hstep]
    have hmin := Nat.min_le_right pending.length (bufCap - w1.bufferItem)
    dsimp only
    omega
  · rw [hstep]
    dsimp only
    rw [List.append_assoc]
    refine List.take_left' ?_
    rw [List.length_take]
    omega

set_option maxRecDepth 8000 in
/-- C6 witness: 48 buffered bytes are under the watermark, so no parse is
    forced and three pending bytes are appended in full. -/
theorem epollWaitStep_overflow_policy_witness :
    (wTwoRecords.eventBuffer.length = bufCap ∧ wTwoRecords.bufferItem ≤ bufCap ∧
        (MAX_ITEM < wTwoRecords.bufferItem →
          wTwoRecords.watchMap (readU32 wTwoRecords.eventBuffer) = none ∨
            SizeofInotifyEvent + readU32 (wTwoRecords.eventBuffer.drop 12) ≤
              wTwoRecords.bufferItem)) ∧
      ((epollWaitStep wTwoRecords [9, 9, 9]).bufferItem =
          (if MAX_ITEM < wTwoRecords.bufferItem then (forwardBuffer wTwoRecords).2
            else wTwoRecords).bufferItem +
            min ([9, 9, 9] : Bytes).length
              (bufCap - (if MAX_ITEM < wTwoRecords.bufferItem then (forwardBuffer wTwoRecords).2
                else wTwoRecords).bufferItem) ∧
        (epollWaitStep wTwoRecords [9, 9, 9]).bufferItem ≤ bufCap ∧
        (epollWaitStep wTwoRecords [9, 9, 9]).eventBuffer.take
            (if MAX_ITEM < wTwoRecords.bufferItem then (forwardBuffer wTwoRecords).2
              else wTwoRecords).bufferItem =
          (if MAX_ITEM < wTwoRecords.bufferItem then (forwardBuffer wTwoRecords).2
            else wTwoRecords).eventBuffer.take
            (if MAX_ITEM < wTwoRecords.bufferItem then (forwardBuffer wTwoRecords).2
              else wTwoRecords).bufferItem) :=
  ⟨by decide,
    epollWaitStep_overflow_policy wTwoRecords [9, 9, 9] (by decide) (by decide) (by decide)⟩

/-- C7 counterexample: on a watcher with both descriptors open (3 and 4), a
    second `Close` issues `syscall.Close` on both handles again — descriptor 3
    is closed twice — because `Close` never resets the stored descriptors. -/
theorem close_close_releases_again :
    (Close wFresh).closedLog = [3, 4] ∧
      (Close (Close wFresh)).closedLog = [3, 4, 3, 4] ∧
      ¬ (Close (Close wFresh)).closedLog.count (3 : Int) ≤ 1 := by
  decide

/-- C7 amended: `Close` reports no error (it has no error result) and a
    second `Close` changes no descriptor field, but it re-issues the close
    syscalls on every handle that is not `-1`, exactly repeating the first
    call's closes: `Close` is idempotent on the watcher state yet not on the
    released OS handles. -/
theorem close_twice_no_error_but_recloses (w : Watcher) :
    (Close w).inotifyFD = w.inotifyFD ∧ (Close w).epollFD = w.epollFD ∧
      (Close w).closedLog = w.closedLog ++ closeFds w ∧
      (Close (Close w)).closedLog = w.closedLog ++ closeFds w ++ closeFds w := by
  by_cases h1 : w.inotifyFD = -1 <;> by_cases h2 : w.epollFD = -1 <;>
    simp [Close, closeFds, h1, h2, List.append_assoc]

end Inotify
